import Mathlib

/-
Verification of the IBKR market-data fetch engine (henrysouchien/ibkr-mcp):
shallow embedding of the disk cache (src/ibkr/cache.py), the historical-fetch
orchestrator and snapshot fetch (src/ibkr/market_data.py), and the connection
manager's reconnect loop (src/ibkr/connection.py), together with theorems
settling the frozen claims about them.

Modelling conventions:
- Python strings are `List Char`; `str.strip`/`str.upper`/`str.lower` are
  modelled over the ASCII range (the repository only ever feeds ASCII symbols
  and whitespace through these paths).
- pandas timestamps are a calendar date plus a minute-of-day, optionally
  carrying a timezone offset in minutes (`TimestampTz`); `_to_timestamp`'s
  tz-normalisation is `toNaive`.
- Rational numbers stand for Python floats; NaN/None are `Option`/`PyVal`
  cases, mirroring how the code routes them (`dropna`, `_as_float`).
- Filesystem state is an association list from cache keys to file entries
  carrying the parsed content and the file age in seconds (the mtime clock).
- Exceptions are `Except`/sum constructors; a caught-and-absorbed exception is
  a branch of the embedding, so the Lean functions are total exactly because
  the Python functions catch these errors.
-/

/-! ## Characters and Python-style string normalisation -/

/-- ASCII whitespace set stripped by Python `str.strip()`
(space, tab, newline, carriage return, vertical tab, form feed). -/
def isWsChar (c : Char) : Bool :=
  c.toNat == 32 || c.toNat == 9 || c.toNat == 10 || c.toNat == 13 ||
    c.toNat == 11 || c.toNat == 12

/-- ASCII uppercase of one character (Python `str.upper` on the ASCII range). -/
def upChar (c : Char) : Char :=
  if 97 ≤ c.toNat ∧ c.toNat ≤ 122 then Char.ofNat (c.toNat - 32) else c

/-- ASCII lowercase of one character (Python `str.lower` on the ASCII range). -/
def lowChar (c : Char) : Char :=
  if 65 ≤ c.toNat ∧ c.toNat ≤ 90 then Char.ofNat (c.toNat + 32) else c

/-- Python `s.upper()`. -/
def upperChars (l : List Char) : List Char := l.map upChar

/-- Python `s.lower()`. -/
def lowerChars (l : List Char) : List Char := l.map lowChar

/-- Leading-whitespace strip. -/
def dropLeadWs (l : List Char) : List Char := l.dropWhile isWsChar

/-- Trailing-whitespace strip. -/
def dropTrailWs (l : List Char) : List Char := (l.reverse.dropWhile isWsChar).reverse

/-- Python `s.strip()`: remove leading and trailing whitespace. -/
def trimChars (l : List Char) : List Char := dropTrailWs (dropLeadWs l)

/-! ## Calendar dates and timestamps -/

/-- A calendar date, as carried by `pd.Timestamp.date()`. -/
structure Date where
  year : ℕ
  month : ℕ
  day : ℕ
deriving DecidableEq, Repr

/-- Gregorian leap-year test. -/
def isLeapYear (y : ℕ) : Bool :=
  (y % 4 == 0 && y % 100 != 0) || y % 400 == 0

/-- Length of a calendar month. -/
def daysInMonth (y m : ℕ) : ℕ :=
  if m = 2 then (if isLeapYear y then 29 else 28)
  else if m = 4 ∨ m = 6 ∨ m = 9 ∨ m = 11 then 30
  else 31

/-- Strict chronological order on dates (lexicographic year/month/day). -/
def dateLt (a b : Date) : Prop :=
  a.year < b.year ∨ (a.year = b.year ∧
    (a.month < b.month ∨ (a.month = b.month ∧ a.day < b.day)))

/-- Chronological order on dates. -/
def dateLe (a b : Date) : Prop := dateLt a b ∨ a = b

instance (a b : Date) : Decidable (dateLt a b) := by
  unfold dateLt; exact inferInstance

instance (a b : Date) : Decidable (dateLe a b) := by
  unfold dateLe; exact inferInstance

/-- A timezone-naive pandas timestamp, at minute resolution. -/
structure Timestamp where
  date : Date
  minute : ℕ
deriving DecidableEq, Repr

/-- Strict chronological order on naive timestamps. -/
def tsLt (a b : Timestamp) : Prop :=
  dateLt a.date b.date ∨ (a.date = b.date ∧ a.minute < b.minute)

/-- Chronological order on naive timestamps. -/
def tsLe (a b : Timestamp) : Prop := tsLt a b ∨ a = b

instance (a b : Timestamp) : Decidable (tsLt a b) := by
  unfold tsLt; exact inferInstance

instance (a b : Timestamp) : Decidable (tsLe a b) := by
  unfold tsLe; exact inferInstance

/-- Days since 1970-01-01 of a civil date (Hinnant's `days_from_civil`). -/
def toDays (d : Date) : ℤ :=
  let y : ℤ := if d.month ≤ 2 then (d.year : ℤ) - 1 else (d.year : ℤ)
  let m : ℤ := (d.month : ℤ)
  let era : ℤ := Int.fdiv y 400
  let yoe : ℤ := y - era * 400
  let doy : ℤ := (Int.fdiv (153 * (m + (if 2 < m then -3 else 9)) + 2) 5) + (d.day : ℤ) - 1
  let doe : ℤ := yoe * 365 + Int.fdiv yoe 4 - Int.fdiv yoe 100 + doy
  era * 146097 + doe - 719468

/-- Civil date from days since 1970-01-01 (Hinnant's `civil_from_days`). -/
def fromDays (z0 : ℤ) : Date :=
  let z := z0 + 719468
  let era := Int.fdiv z 146097
  let doe := (z - era * 146097).toNat
  let yoe := (doe - doe / 1460 + doe / 36524 - doe / 146096) / 365
  let y : ℤ := (yoe : ℤ) + era * 400
  let doy := doe - (365 * yoe + yoe / 4 - yoe / 100)
  let mp := (5 * doy + 2) / 153
  let d := doy - (153 * mp + 2) / 5 + 1
  let m := if mp < 10 then mp + 3 else mp - 9
  ⟨(if m ≤ 2 then y + 1 else y).toNat, m, d⟩

/-- A possibly timezone-aware pandas timestamp; `tz` is the UTC offset in
minutes when present. -/
structure TimestampTz where
  date : Date
  minute : ℕ
  tz : Option ℤ
deriving DecidableEq, Repr

/-- `ibkr.cache._to_timestamp`: normalise datetime-like values to a naive UTC
timestamp (`tz_convert("UTC").tz_localize(None)` for aware inputs). -/
def toNaive (t : TimestampTz) : Timestamp :=
  match t.tz with
  | none => ⟨t.date, t.minute⟩
  | some off =>
    let total : ℤ := toDays t.date * 1440 + (t.minute : ℤ) - off
    ⟨fromDays (Int.fdiv total 1440), (Int.fmod total 1440).toNat⟩

/-! ## Cache key derivation (`ibkr.cache.cache_key`) -/

/-- The normalised components joined (with `|`) and md5-hashed by
`ibkr.cache.cache_key`.  The hex fingerprint is a deterministic function of
this record (`md5("|".join(parts))`), so equality of `CacheKeyParts` values
entails equality of the derived keys; all key-identity reasoning happens at
this level. -/
structure CacheKeyParts where
  sym : List Char
  instr : List Char
  wts : List Char
  bar : List Char
  rth : Bool
  startD : Date
  endD : Date
deriving DecidableEq, Repr

/-- The keyword arguments of `cache_key` / `get_cached` / `put_cache`. -/
structure KeyFields where
  symbol : List Char
  instrument_type : List Char
  what_to_show : List Char
  bar_size : List Char
  use_rth : Bool
  start_date : TimestampTz
  end_date : TimestampTz
deriving DecidableEq, Repr

/-- `ibkr.cache.cache_key`: upper/trim the symbol and source variant,
lower/trim the instrument type, trim the bar size, encode the RTH flag, and
truncate both window bounds to their naive-UTC calendar day. -/
def cache_key (K : KeyFields) : CacheKeyParts :=
  ⟨upperChars (trimChars K.symbol),
   lowerChars (trimChars K.instrument_type),
   upperChars (trimChars K.what_to_show),
   trimChars K.bar_size,
   K.use_rth,
   (toNaive K.start_date).date,
   (toNaive K.end_date).date⟩

/-! ## Disk cache (`ibkr.cache`) -/

/-- Content of one on-disk cache file, as seen through `pd.read_parquet`:
either unreadable bytes (any parse failure), or a data frame with a flag for
whether a `value` column is present and rows of (possibly unparsable)
timestamp index plus float value. -/
inductive FileData where
  | garbage : FileData
  | frame (hasValueCol : Bool) (rows : List (Option Timestamp × ℚ)) : FileData
deriving DecidableEq, Repr

/-- One cache file: parsed content plus its age in seconds
(now minus mtime, the freshness clock used by `_is_expired`). -/
structure FileEntry where
  content : FileData
  ageSeconds : ℕ
deriving DecidableEq, Repr

/-- The cache directory: an association list from derived keys to files. -/
abbrev Store := List (CacheKeyParts × FileEntry)

/-- File-existence check plus read (`path.is_file()` / `pd.read_parquet`). -/
def lookupStore (k : CacheKeyParts) : Store → Option FileEntry
  | [] => none
  | (k', e) :: rest => if k' = k then some e else lookupStore k rest

/-- `path.unlink(missing_ok=True)`. -/
def eraseStore (k : CacheKeyParts) (st : Store) : Store :=
  st.filter fun p => if p.1 = k then false else true

/-- An in-memory pandas series: time-indexed float values plus a name. -/
structure PdSeries where
  data : List (Timestamp × ℚ)
  name : Option (List Char)
deriving DecidableEq, Repr

/-- The empty float series `pd.Series(dtype=float)`. -/
def emptyPdSeries : PdSeries := ⟨[], none⟩

/-- `ibkr.cache.CURRENT_MONTH_TTL_HOURS`. -/
def CURRENT_MONTH_TTL_HOURS : ℕ := 4

/-- `ibkr.cache._includes_current_month`: normalise both bounds to naive UTC,
swap them if inverted, and test `start ≤ month_end ∧ month_start ≤ end`,
where `month_start` is midnight on the first day of the month containing
`now` and `month_end` is `month_start + pd.offsets.MonthEnd(1)`, i.e.
midnight on the *last calendar day* of that month. -/
def includesCurrentMonth (s e : TimestampTz) (now : Timestamp) : Bool :=
  let sN := toNaive s
  let eN := toNaive e
  let lo := if tsLt eN sN then eN else sN
  let hi := if tsLt eN sN then sN else eN
  let monthStart : Timestamp := ⟨⟨now.date.year, now.date.month, 1⟩, 0⟩
  let monthEnd : Timestamp :=
    ⟨⟨now.date.year, now.date.month, daysInMonth now.date.year now.date.month⟩, 0⟩
  decide (tsLe lo monthEnd) && decide (tsLe monthStart hi)

/-- `ibkr.cache._is_expired`: no TTL means never expired, otherwise compare
the file age against the TTL (age_hours > ttl_hours over the reals is
age-in-seconds > ttl·3600). -/
def is_expired (ageSeconds : ℕ) (ttlHours : Option ℕ) : Bool :=
  match ttlHours with
  | none => false
  | some t => decide (ageSeconds > t * 3600)

/-- `ibkr.cache._safe_read`: `None` signals a structural failure (the caller
deletes the file); an empty frame deserialises to an empty series *before*
the `value`-column check; otherwise project the `value` column, coerce the
index and silently drop rows with unparsable timestamps. -/
def safe_read : FileData → Option (List (Timestamp × ℚ))
  | .garbage => none
  | .frame hasValueCol rows =>
    if rows = [] then some []
    else if hasValueCol then
      some (rows.filterMap fun p => p.1.map fun t => (t, p.2))
    else none

/-- `ibkr.cache.get_cached`: locate the entry file; route the TTL by
`_includes_current_month`; delete and miss when expired; delete and miss on
corrupt content; otherwise return the series named by the normalised
symbol.  Returns the result together with the new filesystem state. -/
def get_cached (K : KeyFields) (st : Store) (now : Timestamp) :
    Option PdSeries × Store :=
  let path := cache_key K
  match lookupStore path st with
  | none => (none, st)
  | some e =>
    let ttl : Option ℕ :=
      if includesCurrentMonth K.start_date K.end_date now
      then some CURRENT_MONTH_TTL_HOURS else none
    if is_expired e.ageSeconds ttl then (none, eraseStore path st)
    else
      match safe_read e.content with
      | none => (none, eraseStore path st)
      | some rows => (some ⟨rows, some (upperChars (trimChars K.symbol))⟩, st)

/-- The rows surviving `put_cache`'s cleaning: `series.dropna()` (values)
followed by index coercion and dropping unparsable timestamps. -/
def cleanedRows (raw : List (Option Timestamp × Option ℚ)) :
    List (Timestamp × ℚ) :=
  (raw.filter fun p => p.2.isSome).filterMap fun p =>
    match p.1, p.2 with
    | some t, some v => some (t, v)
    | _, _ => none

/-- `ibkr.cache.put_cache`: refuse empty or all-null input, clean the rows,
refuse if nothing survives, else overwrite the entry for the derived key in
full with a fresh (age-zero) `value`-column frame. -/
def put_cache (raw : List (Option Timestamp × Option ℚ)) (K : KeyFields)
    (st : Store) : Option CacheKeyParts × Store :=
  if raw = [] ∨ raw.filter (fun p => p.2.isSome) = [] then (none, st)
  else
    let cleaned := cleanedRows raw
    if cleaned = [] then (none, st)
    else
      let path := cache_key K
      (some path,
        (path, ⟨.frame true (cleaned.map fun p => (some p.1, p.2)), 0⟩)
          :: eraseStore path st)

/-! ## Duration strings (`ibkr.market_data._compute_duration_str`) -/

/-- `pd.Timestamp(start) + pd.DateOffset(years=k)`: add `k` years, clamping
the day of month to the target month's length (Feb 29 → Feb 28). -/
def addYears (d : Date) (k : ℕ) : Date :=
  ⟨d.year + k, d.month, min d.day (daysInMonth (d.year + k) d.month)⟩

/-- The year count computed by `_compute_duration_str`: calendar-year
difference, bumped by one if the anchor lies strictly past that year's
anniversary of the start date, floored at 1; `end ≤ start` short-circuits
to 1. -/
def compute_duration_years (s a : Date) : ℕ :=
  if dateLe a s then 1
  else
    let y0 := a.year - s.year
    max 1 (if dateLt (addYears s y0) a then y0 + 1 else y0)

/-- Render a year count the way `_compute_duration_str` does: the decimal
year count followed by a space and `Y`. -/
def yearsStr (n : ℕ) : String := Nat.repr n ++ " Y"

/-- `ibkr.market_data._compute_duration_str` (dates already truncated). -/
def compute_duration_str (s a : Date) : String :=
  yearsStr (compute_duration_years s a)

/-- Fetch profile as configured in `ibkr.profiles.InstrumentProfile`
(the fields the fetch path reads; `duration` is unused there). -/
structure InstrumentProfile where
  instrument_type : List Char
  what_to_show_chain : List (List Char)
  bar_size : List Char
  use_rth : Bool
deriving DecidableEq, Repr

/-- `ibkr.market_data.IBKRMarketDataClient._duration_for_request`: futures
profiles anchor the duration at "now", all others at the requested end. -/
def duration_for_request_str (p : InstrumentProfile)
    (startD endD nowD : Date) : String :=
  if p.instrument_type = "futures".toList
  then compute_duration_str startD nowD
  else compute_duration_str startD endD

/-- Claim-side anchor selection: "now" for futures, the requested end
otherwise. -/
def anchor_date (p : InstrumentProfile) (endD nowD : Date) : Date :=
  if p.instrument_type = "futures".toList then nowD else endD

/-- Claim-side "whole-year difference": the greatest `k` whose `k`-year
anniversary of the start date does not exceed the anchor. -/
def wholeYearDiff (s a : Date) : ℕ :=
  Nat.findGreatest (fun k => dateLe (addYears s k) a) (a.year - s.year)

/-- Claim-side duration: `max(1, y)` years, where `y` is the whole-year
difference, incremented when the anchor strictly exceeds the `y`-year
anniversary; 1 year when the anchor is on or before the start. -/
def duration_spec_years (s a : Date) : ℕ :=
  if dateLe a s then 1
  else
    let y := wholeYearDiff s a
    max 1 (if dateLt (addYears s y) a then y + 1 else y)

/-! ## Fetch orchestrator (`ibkr.market_data.IBKRMarketDataClient`) -/

/-- Substring test (Python's `needle in text`). -/
def startsWithChars : List Char → List Char → Bool
  | [], _ => true
  | _ :: _, [] => false
  | a :: t, b :: u => a == b && startsWithChars t u

/-- Substring test (Python's `needle in text`). -/
def containsSub (needle : List Char) : List Char → Bool
  | [] => needle.isEmpty
  | c :: rest => startsWithChars needle (c :: rest) || containsSub needle rest

/-- The market-data exception taxonomy of `ibkr.exceptions` as raised by
`_request_bars`. -/
inductive IBKRErr where
  | connection : IBKRErr
  | contract : IBKRErr
  | entitlement : IBKRErr
  | noData : IBKRErr
  | dataOther (msg : List Char) : IBKRErr
deriving DecidableEq, Repr

/-- The raw outcome of the qualify-and-request block inside `_request_bars`
for one candidate: qualification produced no usable contract, the gateway
call raised a generic exception with some message, or it returned a bar
list. -/
inductive GatewayRaw where
  | qualifyFail : GatewayRaw
  | exn (msg : List Char) : GatewayRaw
  | bars (bs : List ℕ) : GatewayRaw
deriving DecidableEq, Repr

/-- The generic-exception classifier in `_request_bars`: entitlement wording
first, then contract wording, else a generic data error. -/
def classifyExn (msg : List Char) : IBKRErr :=
  let t := lowerChars msg
  if containsSub ("entitlement".toList) t
      || containsSub ("market data permissions".toList) t
      || containsSub ("permission".toList) t then .entitlement
  else if containsSub ("no security definition".toList) t
      || containsSub ("unknown contract".toList) t
      || containsSub ("includeexpired".toList) t then .contract
  else .dataOther msg

/-- Environment of one `fetch_series` call: what the cache, the gateway and
the bar normaliser would answer for each candidate.  `normalize` is the
time-indexed data `_normalize_bars` produces from a bar list (quantified
over, since the claims do not constrain it). -/
structure FetchEnv where
  getCachedR : List Char → Option PdSeries
  connectOk : List Char → Bool
  raw : List Char → GatewayRaw
  normalize : List ℕ → List (Timestamp × ℚ)

/-- `IBKRMarketDataClient._request_bars` for one candidate: borrow a session
(`_connect_ib`, mapping any failure to `IBKRConnectionError`), qualify the
contract, request bars, raise `IBKRNoDataError` on an empty bar list, and
classify generic exceptions. -/
def request_bars (env : FetchEnv) (c : List Char) : Except IBKRErr (List ℕ) :=
  if env.connectOk c = false then .error .connection
  else
    match env.raw c with
    | .qualifyFail => .error .contract
    | .exn m => .error (classifyExn m)
    | .bars bs => if bs = [] then .error .noData else .ok bs

/-- Trace of one `fetch_series` call: the returned series, the candidates
whose cache entry was read, the candidates for which `_request_bars` opened
a gateway session, and the candidates written back to cache. -/
structure FetchOut where
  result : PdSeries
  reads : List (List Char)
  net : List (List Char)
  writes : List (List Char)
deriving DecidableEq, Repr

/-- Record one gateway call in front of a live-pass trace. -/
def withNet (c : List Char) (o : FetchOut) : FetchOut :=
  { o with net := c :: o.net }

/-- The cache-read pass of `fetch_series`: first candidate with a non-`None`,
non-empty cached series wins; `None` and empty hits both advance. -/
def cache_pass (env : FetchEnv) : List (List Char) →
    List (List Char) × Option PdSeries
  | [] => ([], none)
  | c :: rest =>
    match env.getCachedR c with
    | some s =>
      if s.data = [] then (c :: (cache_pass env rest).1, (cache_pass env rest).2)
      else ([c], some s)
    | none => (c :: (cache_pass env rest).1, (cache_pass env rest).2)

/-- The live-fetch pass of `fetch_series`: request bars per candidate;
empty normalised series and `IBKRNoDataError` / `IBKREntitlementError` /
generic exceptions advance to the next candidate; `IBKRContractError` and
`IBKRConnectionError` abort the whole chain with an empty series; a
non-empty normalised series is cached and returned. -/
def live_pass (env : FetchEnv) (sym : List Char) :
    List (List Char) → FetchOut
  | [] => ⟨emptyPdSeries, [], [], []⟩
  | c :: rest =>
    match request_bars env c with
    | .ok bs =>
      let d := env.normalize bs
      if d = [] then withNet c (live_pass env sym rest)
      else ⟨⟨d, some sym⟩, [], [c], [c]⟩
    | .error .noData => withNet c (live_pass env sym rest)
    | .error .entitlement => withNet c (live_pass env sym rest)
    | .error .contract => ⟨emptyPdSeries, [], [c], []⟩
    | .error .connection => ⟨emptyPdSeries, [], [c], []⟩
    | .error (.dataOther _) => withNet c (live_pass env sym rest)

/-- The candidate chain of `fetch_series` step 3: an explicitly supplied
(truthy, i.e. non-empty) `what_to_show` override becomes a singleton chain,
else the profile's fallback chain is used. -/
def chain_of (override : List Char) (p : InstrumentProfile) :
    List (List Char) :=
  if override = [] then p.what_to_show_chain
  else [upperChars (trimChars override)]

/-- `IBKRMarketDataClient.fetch_series`, with parse/lookup/resolution
outcomes supplied as `Option`s (`none` models the corresponding exception):
normalise and validate the symbol, parse and validate the date range,
resolve the profile, build the chain, resolve the contract, then run the
cache-read pass and only afterwards the live-fetch pass. -/
def fetch_series (env : FetchEnv) (symbol : List Char)
    (startP endP : Option Timestamp) (profileP : Option InstrumentProfile)
    (override : List Char) (contractP : Option Unit) : FetchOut :=
  let sym := upperChars (trimChars symbol)
  if sym = [] then ⟨emptyPdSeries, [], [], []⟩
  else
    match startP, endP with
    | some startTs, some endTs =>
      if tsLt endTs startTs then ⟨emptyPdSeries, [], [], []⟩
      else
        match profileP with
        | none => ⟨emptyPdSeries, [], [], []⟩
        | some prof =>
          let chain := chain_of override prof
          if chain = [] then ⟨emptyPdSeries, [], [], []⟩
          else
            match contractP with
            | none => ⟨emptyPdSeries, [], [], []⟩
            | some _ =>
              let (reads, hit) := cache_pass env chain
              match hit with
              | some s => ⟨{ s with name := some sym }, reads, [], []⟩
              | none => { live_pass env sym chain with reads := reads }
    | _, _ => ⟨emptyPdSeries, [], [], []⟩

/-- The first fresh (non-`None`, non-empty) cache answer for a candidate. -/
def freshHit (env : FetchEnv) (c : List Char) : Option PdSeries :=
  match env.getCachedR c with
  | some s => if s.data = [] then none else some s
  | none => none

/-! ## Snapshot fetch (`IBKRMarketDataClient.fetch_snapshot`) -/

/-- A raw Python attribute value on a ticker, as consumed by `_as_float`:
absent/`None`, a NaN/infinite float, or a finite number. -/
inductive PyVal where
  | absent : PyVal
  | nanOrInf : PyVal
  | num (q : ℚ) : PyVal
deriving DecidableEq, Repr

/-- `IBKRMarketDataClient._as_float`: `None`, NaN and ±inf map to `None`. -/
def as_float : PyVal → Option ℚ
  | .absent => none
  | .nanOrInf => none
  | .num q => some q

/-- `IBKRMarketDataClient._as_int`: `_as_float` then `int()`, which
truncates toward zero (`Int.tdiv`, not floor division). -/
def as_int (v : PyVal) : Option ℤ :=
  (as_float v).map fun q => q.num.tdiv (q.den : ℤ)

/-- The `modelGreeks` object on a ticker. -/
structure MGreeks where
  impliedVol : PyVal
  delta : PyVal
  gamma : PyVal
  theta : PyVal
  vega : PyVal
deriving DecidableEq, Repr

/-- The ticker fields read by `fetch_snapshot`; `time` records whether a
`ticker.time` value was received. -/
structure Ticker where
  bid : PyVal
  ask : PyVal
  last : PyVal
  volume : PyVal
  callVolume : PyVal
  putVolume : PyVal
  callOpenInterest : PyVal
  putOpenInterest : PyVal
  impliedVolatility : PyVal
  modelGreeks : Option MGreeks
  time : Bool
deriving DecidableEq, Repr

/-- The contract fields `fetch_snapshot` reads. -/
structure MContract where
  secType : List Char
  right : List Char
deriving DecidableEq, Repr

/-- `IBKRMarketDataClient._value_for_option_side`: prefer the put-side or
call-side field matching the contract's right, fall back to the other. -/
def value_for_option_side (right : List Char) (callAttr putAttr : PyVal) :
    Option ℤ :=
  let preferPut := right = "P".toList
  let primary := if preferPut then putAttr else callAttr
  let secondary := if preferPut then callAttr else putAttr
  match as_int primary with
  | some v => some v
  | none => as_int secondary

/-- The parsed snapshot fields of one successful per-contract result dict. -/
structure SnapData where
  bid : Option ℚ
  ask : Option ℚ
  last : Option ℚ
  mid : Option ℚ
  volume : Option ℤ
  openInterest : Option ℤ
  impliedVol : Option ℚ
  delta : Option ℚ
  gamma : Option ℚ
  theta : Option ℚ
  vega : Option ℚ
deriving DecidableEq, Repr

/-- One per-contract result of `fetch_snapshot`: a data dict or a dict with
a single `error` field. -/
inductive SnapEntry where
  | errE (msg : List Char) : SnapEntry
  | dataE (d : SnapData) : SnapEntry
deriving DecidableEq, Repr

/-- Per-contract qualification outcome inside `fetch_snapshot`'s first loop. -/
inductive QualifyRes where
  | qOk (c : MContract) : QualifyRes
  | qEmpty : QualifyRes
  | qExn (msg : List Char) : QualifyRes
deriving DecidableEq, Repr

/-- Per-contract `reqMktData` outcome inside `fetch_snapshot`'s second loop. -/
inductive ReqRes where
  | rOk (t : Ticker) : ReqRes
  | rExn (msg : List Char) : ReqRes
deriving DecidableEq, Repr

/-- Environment of one `fetch_snapshot` call: connection outcome,
per-position qualification and market-data-request outcomes, and whether the
bounded `ib.sleep` wait raised. -/
structure SnapEnv where
  connect : Except (List Char) Unit
  qualify : ℕ → QualifyRes
  req : ℕ → ReqRes
  sleepFail : Option (List Char)

/-- The `pre_errors` map: qualification failures and request failures
recorded against a contract position. -/
def preError (env : SnapEnv) (i : ℕ) : Option (List Char) :=
  match env.qualify i with
  | .qEmpty => some ("unable to qualify contract".toList)
  | .qExn m => some (if m = [] then ("qualification failed".toList) else m)
  | .qOk _ =>
    match env.req i with
    | .rExn m => some (if m = [] then ("snapshot request failed".toList) else m)
    | .rOk _ => none

/-- The `qualified_by_index` map. -/
def qualifiedAt (env : SnapEnv) (i : ℕ) : Option MContract :=
  match env.qualify i with
  | .qOk c => some c
  | _ => none

/-- The `tickers_by_index` map. -/
def tickerAt (env : SnapEnv) (i : ℕ) : Option Ticker :=
  match env.qualify i with
  | .qOk _ =>
    match env.req i with
    | .rOk t => some t
    | .rExn _ => none
  | _ => none

/-- The per-contract entry assembly in `fetch_snapshot`'s output loop:
pre-recorded errors first, then the timeout marker, then field extraction
(mid from bid/ask, option-side volume and open interest for `OPT`, greeks
from `modelGreeks` with the ticker-level implied-vol fallback), with the
"no observable data and no tick time" timeout check. -/
def snapshotEntry (env : SnapEnv) (contract : MContract) (i : ℕ) : SnapEntry :=
  match preError env i with
  | some m => .errE m
  | none =>
    match tickerAt env i with
    | none => .errE ("timeout".toList)
    | some tk =>
      let bid := as_float tk.bid
      let ask := as_float tk.ask
      let last := as_float tk.last
      let mid := match bid, ask with
        | some b, some a => some ((b + a) / 2)
        | _, _ => none
      let cf := (qualifiedAt env i).getD contract
      let secT := upperChars cf.secType
      let right := upperChars cf.right
      let volume :=
        if secT = "OPT".toList
        then value_for_option_side right tk.callVolume tk.putVolume
        else as_int tk.volume
      let openInterest :=
        if secT = "OPT".toList
        then value_for_option_side right tk.callOpenInterest tk.putOpenInterest
        else none
      let gvals := tk.modelGreeks
      let impliedVol :=
        match gvals with
        | some g =>
          match as_float g.impliedVol with
          | some q => some q
          | none => as_float tk.impliedVolatility
        | none => as_float tk.impliedVolatility
      let delta := match gvals with | some g => as_float g.delta | none => none
      let gamma := match gvals with | some g => as_float g.gamma | none => none
      let theta := match gvals with | some g => as_float g.theta | none => none
      let vega := match gvals with | some g => as_float g.vega | none => none
      let hasData := bid.isSome || ask.isSome || last.isSome || volume.isSome
        || openInterest.isSome || impliedVol.isSome || delta.isSome
        || gamma.isSome || theta.isSome || vega.isSome
      if hasData = false ∧ tk.time = false then .errE ("timeout".toList)
      else .dataE ⟨bid, ask, last, mid, volume, openInterest, impliedVol,
        delta, gamma, theta, vega⟩

/-- Result of `fetch_snapshot`: the output list plus whether a gateway
session was opened (`_connect_ib` was called). -/
structure SnapOut where
  entries : List SnapEntry
  sessionOpened : Bool
deriving DecidableEq, Repr

/-- `IBKRMarketDataClient.fetch_snapshot`: empty input short-circuits before
any connection; a connection failure, or a failure of the bounded wait,
yields one error entry per contract; otherwise one entry per contract is
assembled in input order. -/
def fetch_snapshot (env : SnapEnv) (contracts : List MContract)
    (timeout : ℚ) : SnapOut :=
  if contracts = [] then ⟨[], false⟩
  else
    let timeoutSeconds := max 0 timeout
    match env.connect with
    | .error m => ⟨contracts.map fun _ => .errE m, true⟩
    | .ok _ =>
      match (if 0 < timeoutSeconds then env.sleepFail else none) with
      | some m =>
        ⟨contracts.map fun _ =>
          .errE (if m = [] then ("snapshot request failed".toList) else m), true⟩
      | none =>
        ⟨contracts.enum.map fun p => snapshotEntry env p.2 p.1, true⟩

/-! ## Connection manager reconnect loop (`ibkr.connection`) -/

/-- The `IBKRConnectionManager` state the reconnect path touches: the
session (`_ib`), the managed-accounts snapshot, and the reconnecting and
manual-disconnect flags. -/
structure ConnState where
  ib : Bool
  accounts : List (List Char)
  reconnecting : Bool
  manualDisconnect : Bool
deriving DecidableEq, Repr

/-- Environment for reconnect runs: whether the n-th `connect()` attempt
succeeds, and the managed accounts discovered on a successful connect. -/
structure ConnEnv where
  connectAttempt : ℕ → Bool
  accountsOnConnect : List (List Char)

/-- `IBKRConnectionManager._max_reconnect_attempts`. -/
def max_reconnect_attempts : ℕ := 3

/-- The body of `_reconnect`'s `for attempt in range(1, max+1)` loop: sleep
`base · attempt` seconds then try `connect()`; stop on the first success.
Returns the trace of (attempt number, delay) pairs in order, and the
successful attempt number if any. -/
def reconnectAttempts (env : ConnEnv) (base : ℕ) :
    List ℕ → List (ℕ × ℕ) × Option ℕ
  | [] => ([], none)
  | a :: rest =>
    if env.connectAttempt a then ([(a, base * a)], some a)
    else
      ((a, base * a) :: (reconnectAttempts env base rest).1,
        (reconnectAttempts env base rest).2)

/-- `IBKRConnectionManager._reconnect`: run the bounded attempt loop, apply
the successful connect's effects if any, and always clear the
`_reconnecting` flag in the `finally` block. -/
def reconnect_run (st : ConnState) (env : ConnEnv) (base : ℕ) :
    ConnState × List (ℕ × ℕ) :=
  let r := reconnectAttempts env base (List.range' 1 max_reconnect_attempts)
  let st' :=
    match r.2 with
    | some _ => { st with ib := true, accounts := env.accountsOnConnect }
    | none => st
  ({ st' with reconnecting := false }, r.1)

/-- `IBKRConnectionManager._on_disconnect`: ignore manual disconnects; else
clear the session and accounts and, unless a reconnect loop is already
running, set the flag and run exactly one reconnect loop. -/
def on_disconnect (st : ConnState) (env : ConnEnv) (base : ℕ) :
    ConnState × List (ℕ × ℕ) :=
  if st.manualDisconnect then (st, [])
  else
    let st1 := { st with ib := false, accounts := [] }
    if st1.reconnecting then (st1, [])
    else reconnect_run { st1 with reconnecting := true } env base

/-! ## Claim-side reference definitions -/

/-- Claim-side notion for C3: the requested window (bounds normalised to
naive UTC, swapped if inverted) overlaps the calendar month containing
`now`.  Since a calendar month spans whole days, this holds exactly when
the window's low date is on or before the month's last day and its high
date is on or after the month's first day. -/
def windowOverlapsMonth (s e : TimestampTz) (now : Timestamp) : Bool :=
  let sN := toNaive s
  let eN := toNaive e
  let lo := if tsLt eN sN then eN else sN
  let hi := if tsLt eN sN then sN else eN
  decide (dateLe lo.date
      ⟨now.date.year, now.date.month, daysInMonth now.date.year now.date.month⟩)
    && decide (dateLe ⟨now.date.year, now.date.month, 1⟩ hi.date)

/-- Keep only the last occurrence of each timestamp (claim-side
de-duplication for C5). -/
def dedupLast : List (Timestamp × ℚ) → List (Timestamp × ℚ)
  | [] => []
  | p :: r =>
    if r.any (fun q => q.1 == p.1) then dedupLast r else p :: dedupLast r

/-- Insert into a time-sorted list (claim-side sorting for C5). -/
def insertByTs (p : Timestamp × ℚ) : List (Timestamp × ℚ) →
    List (Timestamp × ℚ)
  | [] => [p]
  | q :: r => if tsLe p.1 q.1 then p :: q :: r else q :: insertByTs p r

/-- Time-sort (claim-side sorting for C5). -/
def sortByTs (l : List (Timestamp × ℚ)) : List (Timestamp × ℚ) :=
  l.foldr insertByTs []

/-- The claim-side round-trip reference for C5: the non-null,
de-duplicated (last occurrence wins), time-sorted projection of a raw
series. -/
def spec_projection (raw : List (Option Timestamp × Option ℚ)) :
    List (Timestamp × ℚ) :=
  sortByTs (dedupLast (cleanedRows raw))


/-! ## Concrete instances used by witnesses and counterexamples -/

/-- Sample window start. -/
def tsJan : Timestamp := ⟨⟨2024, 1, 1⟩, 0⟩

/-- Sample window end. -/
def tsJun : Timestamp := ⟨⟨2024, 6, 1⟩, 0⟩

/-- A cached series for the `BID` candidate. -/
def bidSeries : PdSeries := ⟨[(⟨⟨2024, 1, 31⟩, 0⟩, 10)], some ("X".toList)⟩

/-- The FX profile of `ibkr.profiles._PROFILES` (chain `MIDPOINT, BID, ASK`,
daily bars, RTH off). -/
def fxProfile : InstrumentProfile :=
  ⟨"fx".toList, ["MIDPOINT".toList, "BID".toList, "ASK".toList],
    "1 day".toList, false⟩

/-- Environment with a fresh cache hit only for `BID`. -/
def envC1 : FetchEnv :=
  ⟨fun c => if c = "BID".toList then some bidSeries else none,
   fun _ => true, fun _ => .bars [1], fun _ => []⟩

/-- Environment whose gateway returns no bars for every candidate. -/
def envNoData : FetchEnv :=
  ⟨fun _ => none, fun _ => true, fun _ => .bars [], fun _ => []⟩

/-- Environment whose per-request connection always fails. -/
def envConnFail : FetchEnv :=
  ⟨fun _ => none, fun _ => false, fun _ => .bars [1], fun _ => []⟩

/-- A "now" on 2026-10-12. -/
def nowOct : Timestamp := ⟨⟨2026, 10, 12⟩, 0⟩

/-- Window start: noon on the last day of the month containing `nowOct`. -/
def startOct31Noon : TimestampTz := ⟨⟨2026, 10, 31⟩, 720, none⟩

/-- Window end: 18:00 on the last day of the month containing `nowOct`. -/
def endOct31Eve : TimestampTz := ⟨⟨2026, 10, 31⟩, 1080, none⟩

/-- Key fields whose window lies entirely inside the current month but
starts after midnight of its last day. -/
def keyOct : KeyFields :=
  ⟨"spy".toList, "fx".toList, "MIDPOINT".toList, "1 day".toList, false,
    startOct31Noon, endOct31Eve⟩

/-- A row timestamp inside the `keyOct` window. -/
def rowOct : Timestamp := ⟨⟨2026, 10, 31⟩, 720⟩

/-- A five-hour-old readable cache entry for `keyOct`. -/
def staleOctStore : Store :=
  [(cache_key keyOct, ⟨.frame true [(some rowOct, 100)], 18000⟩)]

/-- Key fields whose window overlaps the current month the plain way. -/
def keyCur : KeyFields :=
  ⟨"spy".toList, "fx".toList, "MIDPOINT".toList, "1 day".toList, false,
    ⟨⟨2026, 10, 1⟩, 0, none⟩, ⟨⟨2026, 10, 20⟩, 0, none⟩⟩

/-- Key fields whose window lies entirely in past months. -/
def keyPast : KeyFields :=
  ⟨"spy".toList, "fx".toList, "MIDPOINT".toList, "1 day".toList, false,
    ⟨⟨2024, 1, 1⟩, 0, none⟩, ⟨⟨2024, 6, 30⟩, 0, none⟩⟩

/-- A row timestamp inside the `keyPast` window. -/
def tsPast : Timestamp := ⟨⟨2024, 3, 29⟩, 0⟩

/-- A cache entry holding unreadable bytes. -/
def storeGarbage : Store := [(cache_key keyPast, ⟨.garbage, 50⟩)]

/-- A cache entry holding a readable zero-row frame without a `value`
column. -/
def storeEmptyNoValue : Store := [(cache_key keyPast, ⟨.frame false [], 0⟩)]

/-- A raw series with a duplicated timestamp (both rows valid). -/
def rawDup : List (Option Timestamp × Option ℚ) :=
  [(some tsPast, some 1), (some tsPast, some 2)]

/-- A raw series mixing valid rows, an unparsable timestamp and a NaN. -/
def rawMixed : List (Option Timestamp × Option ℚ) :=
  [(some tsPast, some 3), (none, some 4), (some ⟨⟨2024, 4, 30⟩, 0⟩, none),
    (some ⟨⟨2024, 4, 30⟩, 0⟩, some 5)]

/-- A timezone-aware timestamp (UTC+2): naive UTC date 2024-02-29. -/
def tzAware : TimestampTz := ⟨⟨2024, 3, 1⟩, 30, some 120⟩

/-- A naive timestamp on the same UTC date, different time of day. -/
def tzNaive : TimestampTz := ⟨⟨2024, 2, 29⟩, 600, none⟩

/-- A connected manager state. -/
def stConnected : ConnState := ⟨true, ["U123".toList], false, false⟩

/-- Reconnect environment where every attempt fails. -/
def envAllFail : ConnEnv := ⟨fun _ => false, []⟩

/-- Reconnect environment where exactly the second attempt succeeds. -/
def envSecondOk : ConnEnv := ⟨fun n => n == 2, ["U123".toList]⟩

/-- An option contract. -/
def conOpt : MContract := ⟨"OPT".toList, "P".toList⟩

/-- Snapshot environment whose connection attempt fails. -/
def envSnapErr : SnapEnv :=
  ⟨.error ("IB Gateway not running".toList), fun _ => .qEmpty,
    fun _ => .rExn [], none⟩

/-- A ticker with a few observable fields. -/
def tickOk : Ticker :=
  ⟨.num 1, .num 2, .num (3 / 2), .num 100, .num 5, .num 7, .num 11,
    .num 13, .nanOrInf, none, true⟩

/-- Snapshot environment whose bounded wait raises a generic exception. -/
def envSnapSleep : SnapEnv :=
  ⟨.ok (), fun _ => .qEmpty, fun _ => .rExn [],
    some ("peer closed connection".toList)⟩

/-- Snapshot environment where position 0 qualifies and gets a ticker while
position 1 fails qualification. -/
def envSnapMixed : SnapEnv :=
  ⟨.ok (), fun i => if i = 0 then .qOk conOpt else .qEmpty,
    fun _ => .rOk tickOk, none⟩

/-! ## Supporting lemmas -/

lemma isWsChar_ofNat_letter {n : ℕ} (h1 : 64 < n) (h2 : n < 123) :
    isWsChar (Char.ofNat n) = false := by
  revert h1
  revert h2
  revert n
  decide

lemma isWsChar_of_lower {c : Char} (h : 97 ≤ c.toNat) : isWsChar c = false := by
  simp only [isWsChar, Bool.or_eq_false_iff, beq_eq_false_iff_ne, ne_eq]
  omega

/-- Upper-casing never moves a character into or out of the whitespace set. -/
lemma isWsChar_upChar (c : Char) : isWsChar (upChar c) = isWsChar c := by
  unfold upChar
  split
  · next h =>
    rw [isWsChar_of_lower h.1, isWsChar_ofNat_letter (by omega) (by omega)]
  · rfl

lemma dropWhile_append_of_forall {p : Char → Bool} {l m : List Char}
    (h : ∀ c ∈ l, p c = true) : (l ++ m).dropWhile p = m.dropWhile p := by
  induction l with
  | nil => rfl
  | cons a t ih =>
    simp only [List.cons_append, List.dropWhile_cons, h a (List.mem_cons_self a t)]
    exact ih fun c hc => h c (List.mem_cons_of_mem a hc)

lemma dropWhile_eq_nil_of_forall {p : Char → Bool} {l : List Char}
    (h : ∀ c ∈ l, p c = true) : l.dropWhile p = [] := by
  have := dropWhile_append_of_forall (m := ([] : List Char)) h
  simpa using this

lemma dropWhile_append_cases (p : Char → Bool) (l m : List Char) :
    (l ++ m).dropWhile p =
      if l.dropWhile p = [] then m.dropWhile p else l.dropWhile p ++ m := by
  induction l with
  | nil => simp
  | cons a t ih =>
    by_cases hp : p a = true
    · simpa [List.dropWhile_cons, hp] using ih
    · simp [List.dropWhile_cons, hp]

/-- Padding a string with whitespace on either side does not change its strip. -/
lemma trimChars_pad {wsL wsR : List Char} (x : List Char)
    (hL : ∀ c ∈ wsL, isWsChar c = true) (hR : ∀ c ∈ wsR, isWsChar c = true) :
    trimChars (wsL ++ x ++ wsR) = trimChars x := by
  unfold trimChars dropTrailWs dropLeadWs
  rw [List.append_assoc, dropWhile_append_of_forall hL,
    dropWhile_append_cases]
  by_cases hx : x.dropWhile isWsChar = []
  · simp [hx, dropWhile_eq_nil_of_forall hR]
  · have hRrev : ∀ c ∈ wsR.reverse, isWsChar c = true := by
      intro c hc
      exact hR c (List.mem_reverse.mp hc)
    simp only [hx, if_false, List.reverse_append,
      dropWhile_append_of_forall hRrev]

/-- Case-insensitively equal strings remain so after dropping a
whitespace prefix (whitespace is case-stable). -/
lemma upperChars_dropWhile {xs ys : List Char}
    (h : upperChars xs = upperChars ys) :
    upperChars (xs.dropWhile isWsChar) = upperChars (ys.dropWhile isWsChar) := by
  induction xs generalizing ys with
  | nil =>
    have : ys = [] := by
      simpa [upperChars] using h.symm
    simp [this]
  | cons a t ih =>
    cases ys with
    | nil => simp [upperChars] at h
    | cons b u =>
      simp only [upperChars, List.map_cons, List.cons.injEq] at h
      have hws : isWsChar a = isWsChar b := by
        rw [← isWsChar_upChar a, ← isWsChar_upChar b, h.1]
      by_cases ha : isWsChar a = true
      · rw [List.dropWhile_cons, List.dropWhile_cons, ha, ← hws, ha]
        simp only [if_true]
        exact ih h.2
      · rw [List.dropWhile_cons, List.dropWhile_cons, ← hws]
        simp only [ha, if_false]
        simpa [upperChars] using And.intro h.1 h.2

/-- Case-insensitively equal strings remain so after stripping. -/
lemma upperChars_trimChars {xs ys : List Char}
    (h : upperChars xs = upperChars ys) :
    upperChars (trimChars xs) = upperChars (trimChars ys) := by
  unfold trimChars dropTrailWs dropLeadWs
  have h1 := upperChars_dropWhile h
  have h1rev : upperChars (xs.dropWhile isWsChar).reverse
      = upperChars (ys.dropWhile isWsChar).reverse := by
    unfold upperChars at h1 ⊢
    rw [List.map_reverse, List.map_reverse, h1]
  have h2 := upperChars_dropWhile h1rev
  unfold upperChars at h2 ⊢
  rw [List.map_reverse, List.map_reverse, h2]

lemma not_dateLe_iff {a b : Date} : ¬ dateLe a b ↔ dateLt b a := by
  obtain ⟨ya, ma, da⟩ := a
  obtain ⟨yb, mb, db⟩ := b
  simp only [dateLe, dateLt, Date.mk.injEq, not_or, not_and, not_lt]
  constructor
  · intro h
    omega
  · intro h
    omega

lemma dateLt_asymm {a b : Date} (h : dateLt a b) : ¬ dateLt b a := by
  obtain ⟨ya, ma, da⟩ := a
  obtain ⟨yb, mb, db⟩ := b
  simp only [dateLt] at h ⊢
  omega

lemma dateLt_of_year_lt {a b : Date} (h : a.year < b.year) : dateLt a b :=
  Or.inl h

lemma year_le_of_dateLt {a b : Date} (h : dateLt a b) : a.year ≤ b.year := by
  rcases h with h | ⟨h, _⟩
  · exact Nat.le_of_lt h
  · exact Nat.le_of_eq h

lemma dateLe_trans {a b c : Date} (h1 : dateLe a b) (h2 : dateLe b c) :
    dateLe a c := by
  obtain ⟨ya, ma, da⟩ := a
  obtain ⟨yb, mb, db⟩ := b
  obtain ⟨yc, mc, dc⟩ := c
  simp only [dateLe, dateLt, Date.mk.injEq] at h1 h2 ⊢
  omega

lemma dateLe_of_dateLt {a b : Date} (h : dateLt a b) : dateLe a b := Or.inl h

lemma lookupStore_eraseStore (k : CacheKeyParts) (st : Store) :
    lookupStore k (eraseStore k st) = none := by
  induction st with
  | nil => rfl
  | cons p rest ih =>
    by_cases h : p.1 = k
    · simpa [eraseStore, h] using ih
    · simpa [eraseStore, lookupStore, h] using ih

lemma year_addYears (s : Date) (k : ℕ) : (addYears s k).year = s.year + k := rfl

lemma addYears_zero_le (s : Date) : dateLe (addYears s 0) s := by
  obtain ⟨y, m, d⟩ := s
  unfold addYears
  simp only [Nat.add_zero]
  rcases Nat.eq_or_lt_of_le (Nat.min_le_left d (daysInMonth y m)) with he | hlt
  · right
    simp [Date.mk.injEq, he]
  · left
    unfold dateLt
    exact Or.inr ⟨rfl, Or.inr ⟨rfl, hlt⟩⟩

lemma dateLt_of_dateLe_of_dateLt {a b c : Date} (h1 : dateLe a b)
    (h2 : dateLt b c) : dateLt a c := by
  obtain ⟨ya, ma, da⟩ := a
  obtain ⟨yb, mb, db⟩ := b
  obtain ⟨yc, mc, dc⟩ := c
  simp only [dateLe, dateLt, Date.mk.injEq] at h1 h2 ⊢
  omega

lemma wholeYearDiff_eq_of_le {s a : Date}
    (hPD : dateLe (addYears s (a.year - s.year)) a) :
    wholeYearDiff s a = a.year - s.year := by
  unfold wholeYearDiff
  exact Nat.le_antisymm (Nat.findGreatest_le _)
    (Nat.le_findGreatest (le_refl _) hPD)

lemma wholeYearDiff_eq_of_not {s a : Date} (hD1 : 1 ≤ a.year - s.year)
    (hPD : ¬ dateLe (addYears s (a.year - s.year)) a)
    (hP1 : dateLe (addYears s (a.year - s.year - 1)) a) :
    wholeYearDiff s a = a.year - s.year - 1 := by
  unfold wholeYearDiff
  apply Nat.le_antisymm
  · by_contra hcon
    push_neg at hcon
    have hle' :=
      Nat.findGreatest_le (P := fun k => dateLe (addYears s k) a) (a.year - s.year)
    have heq : Nat.findGreatest (fun k => dateLe (addYears s k) a)
        (a.year - s.year) = a.year - s.year := by omega
    exact hPD (Nat.findGreatest_of_ne_zero heq (by omega))
  · exact Nat.le_findGreatest (by omega) hP1

/-- Core equivalence: the calendar-year-difference computation in
`_compute_duration_str` agrees with the claim's anniversary-floor
formulation, for every pair of dates. -/
lemma compute_duration_eq_spec (s a : Date) :
    compute_duration_years s a = duration_spec_years s a := by
  unfold compute_duration_years duration_spec_years
  by_cases hle : dateLe a s
  · simp [hle]
  · simp only [hle, if_false]
    have hlt : dateLt s a := not_dateLe_iff.mp hle
    have hy : s.year ≤ a.year := year_le_of_dateLt hlt
    by_cases hPD : dateLe (addYears s (a.year - s.year)) a
    · rw [wholeYearDiff_eq_of_le hPD]
    · have hD1 : 1 ≤ a.year - s.year := by
        by_contra hcon
        have hD0 : a.year - s.year = 0 := by omega
        apply hPD
        rw [hD0]
        exact dateLe_trans (addYears_zero_le s) (dateLe_of_dateLt hlt)
      have hP1 : dateLe (addYears s (a.year - s.year - 1)) a := by
        apply dateLe_of_dateLt
        apply dateLt_of_year_lt
        rw [year_addYears]
        omega
      rw [wholeYearDiff_eq_of_not hD1 hPD hP1]
      have hcode_if : ¬ dateLt (addYears s (a.year - s.year)) a := by
        intro hcon
        exact hPD (dateLe_of_dateLt hcon)
      have hspec_if : dateLt (addYears s (a.year - s.year - 1)) a := by
        apply dateLt_of_year_lt
        rw [year_addYears]
        omega
      simp only [hcode_if, if_false, hspec_if, if_true]
      omega

lemma cache_pass_cons_hit {env : FetchEnv} {c : List Char} {s : PdSeries}
    (rest : List (List Char)) (h : freshHit env c = some s) :
    cache_pass env (c :: rest) = ([c], some s) := by
  cases hg : env.getCachedR c with
  | none => simp [freshHit, hg] at h
  | some s' =>
    simp only [freshHit, hg] at h
    by_cases hd : s'.data = []
    · rw [if_pos hd] at h; exact absurd h (by simp)
    · rw [if_neg hd] at h
      rw [Option.some.injEq] at h
      subst h
      simp only [cache_pass, hg]
      simp [hd]

lemma cache_pass_cons_miss {env : FetchEnv} {c : List Char}
    (rest : List (List Char)) (h : freshHit env c = none) :
    cache_pass env (c :: rest) =
      (c :: (cache_pass env rest).1, (cache_pass env rest).2) := by
  cases hg : env.getCachedR c with
  | none => simp only [cache_pass, hg]
  | some s' =>
    simp only [freshHit, hg] at h
    by_cases hd : s'.data = []
    · simp only [cache_pass, hg]
      simp [hd]
    · rw [if_neg hd] at h; exact absurd h (by simp)

lemma cache_pass_first_hit (env : FetchEnv) (c : List Char) (s : PdSeries)
    (post : List (List Char)) :
    ∀ pre, (∀ c' ∈ pre, freshHit env c' = none) →
      freshHit env c = some s →
      cache_pass env (pre ++ c :: post) = (pre ++ [c], some s) := by
  intro pre
  induction pre with
  | nil =>
    intro _ hc
    simpa using cache_pass_cons_hit post hc
  | cons a t ih =>
    intro hpre hc
    have ha : freshHit env a = none := hpre a (List.mem_cons_self a t)
    have ihres := ih (fun c' hc' => hpre c' (List.mem_cons_of_mem a hc')) hc
    rw [List.cons_append, cache_pass_cons_miss _ ha]
    simp [ihres]

lemma enumFrom_map_getElem {β : Type _} (f : ℕ × MContract → β)
    (l : List MContract) :
    ∀ n i c, l[i]? = some c → ((l.enumFrom n).map f)[i]? = some (f (n + i, c)) := by
  induction l with
  | nil =>
    intro n i c h
    simp at h
  | cons a t ih =>
    intro n i c h
    cases i with
    | zero =>
      rw [List.getElem?_cons_zero, Option.some.injEq] at h
      subst h
      simp [List.enumFrom]
    | succ i =>
      rw [List.getElem?_cons_succ] at h
      have harith : n + 1 + i = n + (i + 1) := by omega
      have hres := ih (n + 1) i c h
      simp only [List.enumFrom, List.map_cons, List.getElem?_cons_succ]
      rw [hres, harith]

lemma fetch_snapshot_entry_at (env : SnapEnv) (contracts : List MContract)
    (timeout : ℚ) (u : Unit) (i : ℕ) (c : MContract)
    (hconn : env.connect = .ok u)
    (hsl : 0 < max 0 timeout → env.sleepFail = none)
    (hget : contracts[i]? = some c) :
    (fetch_snapshot env contracts timeout).entries[i]? =
      some (snapshotEntry env c i) := by
  have hc : contracts ≠ [] := by
    intro h
    rw [h] at hget
    simp at hget
  have henum := enumFrom_map_getElem
    (fun p => snapshotEntry env p.2 p.1) contracts 0 i c hget
  by_cases ht : (0 : ℚ) < max 0 timeout
  · have hsf := hsl ht
    simp only [fetch_snapshot, hc, if_neg, if_false, hconn, ht, if_true, hsf]
    simpa [List.enum] using henum
  · simp only [fetch_snapshot, hc, if_neg, if_false, hconn, ht, if_false]
    simpa [List.enum] using henum

/-! ## Claim theorems -/

/-- C6: for every start and end date, the duration string sent to the
gateway equals `max(1, y)` years, where `y` is the whole-year difference
between the start date and the anchor date, incremented by one when the
anchor strictly exceeds the `y`-year anniversary of the start date; the
anchor is "now" for futures profiles and the requested end otherwise, and
an anchor on or before the start yields `1 Y`. -/
theorem duration_for_request_matches_claim (p : InstrumentProfile)
    (startD endD nowD : Date) :
    duration_for_request_str p startD endD nowD =
      yearsStr (duration_spec_years startD (anchor_date p endD nowD)) := by
  unfold duration_for_request_str anchor_date compute_duration_str
  by_cases h : p.instrument_type = "futures".toList
  · rw [if_pos h, if_pos h, compute_duration_eq_spec]
  · rw [if_neg h, if_neg h, compute_duration_eq_spec]

/-- C7: the cache key function is deterministic (it is a function of its
arguments) and normalizing: two calls whose symbols differ only in letter
case and surrounding whitespace, and whose window bounds differ only in
time-of-day or timezone on identical naive-UTC dates, derive the identical
key. -/
theorem cache_key_normalizes
    (wsL1 wsR1 wsL2 wsR2 core1 core2 instr wts bar : List Char) (rth : Bool)
    (s1 e1 s2 e2 : TimestampTz)
    (hL1 : ∀ c ∈ wsL1, isWsChar c = true)
    (hR1 : ∀ c ∈ wsR1, isWsChar c = true)
    (hL2 : ∀ c ∈ wsL2, isWsChar c = true)
    (hR2 : ∀ c ∈ wsR2, isWsChar c = true)
    (hcase : upperChars core1 = upperChars core2)
    (hs : (toNaive s1).date = (toNaive s2).date)
    (he : (toNaive e1).date = (toNaive e2).date) :
    cache_key ⟨wsL1 ++ core1 ++ wsR1, instr, wts, bar, rth, s1, e1⟩ =
      cache_key ⟨wsL2 ++ core2 ++ wsR2, instr, wts, bar, rth, s2, e2⟩ := by
  unfold cache_key
  rw [trimChars_pad core1 hL1 hR1, trimChars_pad core2 hL2 hR2,
    upperChars_trimChars hcase, hs, he]

/-- Witness for C7 at concrete inputs: `" spy\t"` against `"SPY"`, and a
UTC+2 timestamp against a naive one on the same UTC date. -/
theorem cache_key_normalizes_witness :
    cache_key ⟨[' '] ++ "spy".toList ++ ['\t'], "fx".toList, "MIDPOINT".toList,
        "1 day".toList, false, tzAware, tzAware⟩ =
      cache_key ⟨[] ++ "SPY".toList ++ [], "fx".toList, "MIDPOINT".toList,
        "1 day".toList, false, tzNaive, tzNaive⟩ :=
  cache_key_normalizes [' '] ['\t'] [] [] ("spy".toList) ("SPY".toList)
    ("fx".toList) ("MIDPOINT".toList) ("1 day".toList) false tzAware tzAware
    tzNaive tzNaive (by decide) (by decide) (by decide) (by decide)
    (by decide) (by decide) (by decide)

/-- C3 (amended): TTL routing follows the code's current-month test: when
`_includes_current_month` holds (start on or before *midnight of the last
day* of the current month and end on or after the month's first midnight,
bounds swapped if inverted), a file older than 4 hours is deleted and the
get returns absent; when it does not hold, no TTL applies and a readable
entry is returned unchanged whatever its age (never evicted by age alone). -/
theorem get_cached_ttl_routing (K : KeyFields) (now : Timestamp) :
    (∀ st e, lookupStore (cache_key K) st = some e →
      includesCurrentMonth K.start_date K.end_date now = true →
      e.ageSeconds > CURRENT_MONTH_TTL_HOURS * 3600 →
      get_cached K st now = (none, eraseStore (cache_key K) st)) ∧
    (includesCurrentMonth K.start_date K.end_date now = false →
      ∀ c rows a, safe_read c = some rows →
        get_cached K [(cache_key K, ⟨c, a⟩)] now =
          (some ⟨rows, some (upperChars (trimChars K.symbol))⟩,
            [(cache_key K, ⟨c, a⟩)])) := by
  constructor
  · intro st e hlook hinc hage
    simp only [get_cached, hlook, hinc]
    have hexp : is_expired e.ageSeconds (some CURRENT_MONTH_TTL_HOURS) = true := by
      simp [is_expired, hage]
    simp [hexp]
  · intro hinc c rows a hsr
    have hlook : lookupStore (cache_key K) [(cache_key K, ⟨c, a⟩)] =
        some ⟨c, a⟩ := by
      simp [lookupStore]
    simp only [get_cached, hlook, hinc]
    have hexp : is_expired a (none : Option ℕ) = false := rfl
    simp [hexp, hsr]

/-- Witness for C3 (amended) at concrete inputs: a 2026-10 window entry
older than 4 hours is evicted, and a 2024 window entry is served whatever
its age. -/
theorem get_cached_ttl_routing_witness :
    get_cached keyCur
        [(cache_key keyCur, ⟨.frame true [(some rowOct, 100)], 20000⟩)] nowOct =
      (none, eraseStore (cache_key keyCur)
        [(cache_key keyCur, ⟨.frame true [(some rowOct, 100)], 20000⟩)]) ∧
    get_cached keyPast [(cache_key keyPast, ⟨.frame true [(some tsPast, 5)], 999999⟩)]
        nowOct =
      (some ⟨[(tsPast, 5)], some (upperChars (trimChars keyPast.symbol))⟩,
        [(cache_key keyPast, ⟨.frame true [(some tsPast, 5)], 999999⟩)]) :=
  ⟨(get_cached_ttl_routing keyCur nowOct).1
      [(cache_key keyCur, ⟨.frame true [(some rowOct, 100)], 20000⟩)]
      ⟨.frame true [(some rowOct, 100)], 20000⟩
      (by decide) (by decide) (by decide),
    (get_cached_ttl_routing keyPast nowOct).2 (by decide)
      (.frame true [(some tsPast, 5)]) [(tsPast, 5)] 999999 (by decide)⟩

/-- Counterexample for C3 as stated: the window
`[2026-10-31 12:00, 2026-10-31 18:00]` lies inside (hence overlaps) the
calendar month containing `now = 2026-10-12`, the entry's age (5 h) exceeds
the 4-hour TTL, yet `get_cached` returns the cached series and leaves the
file in place, because `_includes_current_month` compares the window start
against *midnight* of the month's last day. -/
theorem get_cached_ttl_routing_counterexample :
    windowOverlapsMonth startOct31Noon endOct31Eve nowOct = true ∧
    (18000 : ℕ) > CURRENT_MONTH_TTL_HOURS * 3600 ∧
    includesCurrentMonth startOct31Noon endOct31Eve nowOct = false ∧
    get_cached keyOct staleOctStore nowOct =
      (some ⟨[(rowOct, 100)], some ("SPY".toList)⟩, staleOctStore) := by
  refine ⟨by decide, by decide, by decide, by decide⟩

/-- C4 (amended): for every entry whose content fails structural
deserialization in the code's sense — unreadable bytes, or a readable
*non-empty* frame missing the `value` column — the get returns absent and
the file no longer exists afterward; no error reaches the caller (the
embedding is total).  A readable zero-row frame is returned as an empty
series before the column check, see the counterexample. -/
theorem get_cached_corrupt_fail_open (K : KeyFields) (st : Store)
    (now : Timestamp) (e : FileEntry)
    (hlook : lookupStore (cache_key K) st = some e)
    (hbad : e.content = .garbage ∨
      ∃ rows, rows ≠ [] ∧ e.content = .frame false rows) :
    (get_cached K st now).1 = none ∧
      lookupStore (cache_key K) ((get_cached K st now).2) = none := by
  have hsr : safe_read e.content = none := by
    rcases hbad with h | ⟨rows, hne, h⟩
    · rw [h]; rfl
    · rw [h]; simp [safe_read, hne]
  simp only [get_cached, hlook]
  split_ifs <;> simp [hsr, lookupStore_eraseStore]

/-- Witness for C4 (amended): a garbage-bytes entry reads as absent and is
deleted. -/
theorem get_cached_corrupt_fail_open_witness :
    (get_cached keyPast storeGarbage nowOct).1 = none ∧
      lookupStore (cache_key keyPast) ((get_cached keyPast storeGarbage nowOct).2) =
        none :=
  get_cached_corrupt_fail_open keyPast storeGarbage nowOct ⟨.garbage, 50⟩
    (by decide) (Or.inl rfl)

/-- Counterexample for C4 as stated: a readable *zero-row* frame with no
`value` column is "a readable frame missing the value column", yet
`_safe_read` hits the `frame.empty` branch first, so the get returns an
empty series (not absent) and the file survives. -/
theorem get_cached_corrupt_counterexample :
    (get_cached keyPast storeEmptyNoValue nowOct).1 =
        some ⟨[], some ("SPY".toList)⟩ ∧
      lookupStore (cache_key keyPast)
        ((get_cached keyPast storeEmptyNoValue nowOct).2) =
        some ⟨.frame false [], 0⟩ := by
  refine ⟨by decide, by decide⟩

/-- C5 (amended): for every series accepted by `put_cache` (non-empty after
dropping nulls and invalid timestamps), a put followed by a fresh get with
the same key fields returns exactly the non-null valid-timestamp projection
of the original *in its original order* (named by the normalised symbol);
the cache neither sorts nor de-duplicates, so this equals the claim's
de-duplicated time-sorted projection precisely when that projection is
already time-sorted and duplicate-free — as `_normalize_bars` guarantees
for every series the fetch path stores. -/
theorem put_get_round_trip (raw : List (Option Timestamp × Option ℚ))
    (K : KeyFields) (st : Store) (now : Timestamp)
    (h : cleanedRows raw ≠ []) :
    (get_cached K (put_cache raw K st).2 now).1 =
      some ⟨cleanedRows raw, some (upperChars (trimChars K.symbol))⟩ := by
  have h1 : ¬ (raw = [] ∨ raw.filter (fun p => p.2.isSome) = []) := by
    rintro (h0 | h0)
    · apply h; rw [cleanedRows, h0]; rfl
    · apply h; rw [cleanedRows, h0]; rfl
  simp only [put_cache, h1, if_neg, if_false]
  rw [if_neg h]
  have hlook : lookupStore (cache_key K)
      ((cache_key K, ⟨.frame true ((cleanedRows raw).map fun p => (some p.1, p.2)), 0⟩)
        :: eraseStore (cache_key K) st) =
      some ⟨.frame true ((cleanedRows raw).map fun p => (some p.1, p.2)), 0⟩ := by
    simp [lookupStore]
  simp only [get_cached, hlook]
  have hexp : ∀ t : Option ℕ, is_expired 0 t = false := by
    intro t
    cases t <;> simp [is_expired]
  have hmap : ((cleanedRows raw).map fun p =>
      ((some p.1 : Option Timestamp), p.2)) ≠ [] := by
    simpa using h
  have hsr : safe_read (.frame true ((cleanedRows raw).map fun p => (some p.1, p.2))) =
      some (cleanedRows raw) := by
    simp only [safe_read, hmap, if_neg, if_true, if_false]
    rw [List.filterMap_map]
    have : ((fun p : Option Timestamp × ℚ => p.1.map fun t => (t, p.2)) ∘
        fun p : Timestamp × ℚ => ((some p.1 : Option Timestamp), p.2)) =
        fun p : Timestamp × ℚ => some (p.1, p.2) := by
      funext p
      rfl
    rw [this]
    induction cleanedRows raw with
    | nil => rfl
    | cons p r ih => simp [List.filterMap_cons, ih]
  simp [hexp, hsr]

/-- Witness for C5 (amended): a mixed raw series (valid rows, one NaN, one
unparsable timestamp) round-trips to its cleaned projection in order. -/
theorem put_get_round_trip_witness :
    (get_cached keyPast (put_cache rawMixed keyPast []).2 nowOct).1 =
      some ⟨cleanedRows rawMixed,
        some (upperChars (trimChars keyPast.symbol))⟩ :=
  put_get_round_trip rawMixed keyPast [] nowOct (by decide)

/-- Counterexample for C5 as stated: a raw series with a duplicated
timestamp is accepted by `put_cache`, but the round trip returns both rows
in original order, not the de-duplicated time-sorted projection. -/
theorem put_get_round_trip_counterexample :
    cleanedRows rawDup ≠ [] ∧
    spec_projection rawDup = [(tsPast, 2)] ∧
    (get_cached keyPast (put_cache rawDup keyPast []).2 nowOct).1 =
      some ⟨[(tsPast, 1), (tsPast, 2)], some ("SPY".toList)⟩ ∧
    ([(tsPast, (1 : ℚ)), (tsPast, 2)] : List (Timestamp × ℚ)) ≠ [(tsPast, 2)] := by
  refine ⟨by decide, by decide, by decide, by decide⟩

/-- C1: for every `fetch_series` request that passes input validation,
profile lookup and contract resolution, the cache-read pass runs before any
live fetch: if any chain candidate has a fresh non-empty cache hit, the
returned series is the cached series of the first such candidate (renamed to
the normalised symbol), the cache was read exactly up to that candidate, and
no gateway session is opened (`_request_bars` is never invoked) and nothing
is written. -/
theorem fetch_series_cache_hit_no_network (env : FetchEnv)
    (symbol : List Char) (startTs endTs : Timestamp)
    (prof : InstrumentProfile) (override : List Char)
    (pre post : List (List Char)) (c : List Char) (s : PdSeries)
    (hsym : trimChars symbol ≠ [])
    (hrange : ¬ tsLt endTs startTs)
    (hchain : chain_of override prof = pre ++ c :: post)
    (hpre : ∀ c' ∈ pre, freshHit env c' = none)
    (hhit : freshHit env c = some s) :
    fetch_series env symbol (some startTs) (some endTs) (some prof) override
        (some ()) =
      ⟨{ s with name := some (upperChars (trimChars symbol)) },
        pre ++ [c], [], []⟩ := by
  have hsymU : upperChars (trimChars symbol) ≠ [] := by
    simpa [upperChars] using hsym
  have hchainne : pre ++ c :: post ≠ ([] : List (List Char)) := by simp
  have hcp := cache_pass_first_hit env c s post pre hpre hhit
  simp only [fetch_series]
  rw [if_neg hsymU, if_neg hrange, hchain, if_neg hchainne, hcp]

/-- Witness for C1: with the FX chain and a fresh hit only on `BID`, the
fetch returns the cached `BID` series renamed to `SPY`, reads the cache for
`MIDPOINT` then `BID`, and performs no gateway call and no write. -/
theorem fetch_series_cache_hit_no_network_witness :
    fetch_series envC1 (" spy".toList) (some tsJan) (some tsJun)
        (some fxProfile) [] (some ()) =
      ⟨{ bidSeries with name := some (upperChars (trimChars (" spy".toList))) },
        ["MIDPOINT".toList] ++ ["BID".toList], [], []⟩ :=
  fetch_series_cache_hit_no_network envC1 (" spy".toList) tsJan tsJun
    fxProfile [] ["MIDPOINT".toList] ["ASK".toList] ("BID".toList) bidSeries
    (by decide) (by decide) (by decide) (by decide) (by decide)

/-- C2: in the live-fetch pass, a no-data or entitlement error for a
candidate advances iteration to the next candidate (recording the gateway
call), while a contract-invalid or connection error terminates the whole
chain immediately with an empty series; no exception escapes — the pass is
a total function into series-plus-trace. -/
theorem live_pass_error_routing (env : FetchEnv) (sym c : List Char)
    (rest : List (List Char)) :
    ((request_bars env c = .error .noData ∨
        request_bars env c = .error .entitlement) →
      live_pass env sym (c :: rest) = withNet c (live_pass env sym rest)) ∧
    ((request_bars env c = .error .contract ∨
        request_bars env c = .error .connection) →
      live_pass env sym (c :: rest) = ⟨emptyPdSeries, [], [c], []⟩) := by
  constructor
  · intro h
    rcases h with h | h <;> simp only [live_pass, h]
  · intro h
    rcases h with h | h <;> simp only [live_pass, h]

/-- Witness for C2: an empty bar list (`IBKRNoDataError`) advances from
`MIDPOINT` to `BID`; a connection failure aborts the chain with an empty
series after one attempt. -/
theorem live_pass_error_routing_witness :
    live_pass envNoData ("SPY".toList) ["MIDPOINT".toList, "BID".toList] =
      withNet ("MIDPOINT".toList)
        (live_pass envNoData ("SPY".toList) ["BID".toList]) ∧
    live_pass envConnFail ("SPY".toList) ["MIDPOINT".toList, "BID".toList] =
      ⟨emptyPdSeries, [], ["MIDPOINT".toList], []⟩ :=
  ⟨(live_pass_error_routing envNoData ("SPY".toList) ("MIDPOINT".toList)
      ["BID".toList]).1 (Or.inl rfl),
    (live_pass_error_routing envConnFail ("SPY".toList) ("MIDPOINT".toList)
      ["BID".toList]).2 (Or.inr rfl)⟩

/-- C8: an empty or whitespace-only symbol, an unparsable date, or an
inverted date range makes `fetch_series` return the empty series with no
cache read, no cache write, and no gateway call. -/
theorem fetch_series_invalid_input_no_side_effects (env : FetchEnv)
    (symbol : List Char) (startP endP : Option Timestamp)
    (profileP : Option InstrumentProfile) (override : List Char)
    (contractP : Option Unit)
    (h : trimChars symbol = [] ∨ startP = none ∨ endP = none ∨
      ∃ startTs endTs, startP = some startTs ∧ endP = some endTs ∧
        tsLt endTs startTs) :
    fetch_series env symbol startP endP profileP override contractP =
      ⟨emptyPdSeries, [], [], []⟩ := by
  rcases h with h | h | h | ⟨startTs, endTs, h1, h2, h3⟩
  · have hU : upperChars (trimChars symbol) = [] := by
      simp [upperChars, h]
    simp [fetch_series, hU]
  · subst h
    by_cases hU : upperChars (trimChars symbol) = [] <;>
      simp [fetch_series, hU]
  · subst h
    by_cases hU : upperChars (trimChars symbol) = [] <;>
      cases startP <;> simp [fetch_series, hU]
  · subst h1
    subst h2
    by_cases hU : upperChars (trimChars symbol) = [] <;>
      simp [fetch_series, hU, h3]

/-- Witness for C8: an inverted range produces the empty series and an
empty trace even with a cache-hit-rich environment. -/
theorem fetch_series_invalid_input_witness :
    fetch_series envC1 ("SPY".toList) (some tsJun) (some tsJan)
        (some fxProfile) [] (some ()) = ⟨emptyPdSeries, [], [], []⟩ :=
  fetch_series_invalid_input_no_side_effects envC1 ("SPY".toList)
    (some tsJun) (some tsJan) (some fxProfile) [] (some ())
    (Or.inr (Or.inr (Or.inr ⟨tsJun, tsJan, rfl, rfl, by decide⟩)))

/-- C9: after an unsolicited disconnect while connected (manual flag clear,
no loop already running), if all three attempts fail the loop performs
exactly 3 connect attempts with delay `base · attempt` before each, never a
fourth, and leaves the manager disconnected: no session, empty
managed-accounts list, reconnecting flag cleared; if attempt `k ≤ 3` is the
first to succeed, the loop exits after exactly `k` attempts with a live
session and the flag cleared. -/
theorem reconnect_loop_bounded (st : ConnState) (env : ConnEnv) (base : ℕ)
    (hman : st.manualDisconnect = false) (hrec : st.reconnecting = false) :
    ((∀ a, 1 ≤ a → a ≤ max_reconnect_attempts →
        env.connectAttempt a = false) →
      on_disconnect st env base =
        ({ st with ib := false, accounts := [], reconnecting := false },
          [(1, base * 1), (2, base * 2), (3, base * 3)])) ∧
    (∀ k, 1 ≤ k → k ≤ max_reconnect_attempts → env.connectAttempt k = true →
      (∀ j, 1 ≤ j → j < k → env.connectAttempt j = false) →
      (on_disconnect st env base).2.length = k ∧
        (on_disconnect st env base).1.ib = true ∧
        (on_disconnect st env base).1.reconnecting = false) := by
  have hr : List.range' 1 max_reconnect_attempts = [1, 2, 3] := rfl
  constructor
  · intro hall
    have h1 := hall 1 (by omega) (by decide)
    have h2 := hall 2 (by omega) (by decide)
    have h3 := hall 3 (by omega) (by decide)
    simp [on_disconnect, hman, hrec, reconnect_run, hr, reconnectAttempts,
      h1, h2, h3]
  · intro k hk1 hk3 hksucc hbefore
    unfold max_reconnect_attempts at hk3
    interval_cases k
    · simp [on_disconnect, hman, hrec, reconnect_run, hr, reconnectAttempts,
        hksucc]
    · have h1 := hbefore 1 (by omega) (by omega)
      simp [on_disconnect, hman, hrec, reconnect_run, hr, reconnectAttempts,
        h1, hksucc]
    · have h1 := hbefore 1 (by omega) (by omega)
      have h2 := hbefore 2 (by omega) (by omega)
      simp [on_disconnect, hman, hrec, reconnect_run, hr, reconnectAttempts,
        h1, h2, hksucc]

/-- Witness for C9: with `base = 5`, total failure ends `Disconnected` after
attempts delayed 5, 10, 15 seconds; with the second attempt succeeding, the
loop stops after 2 attempts with a session restored. -/
theorem reconnect_loop_bounded_witness :
    on_disconnect stConnected envAllFail 5 =
      (⟨false, [], false, false⟩,
        [(1, 5 * 1), (2, 5 * 2), (3, 5 * 3)]) ∧
    (on_disconnect stConnected envSecondOk 5).2.length = 2 ∧
      (on_disconnect stConnected envSecondOk 5).1.ib = true ∧
      (on_disconnect stConnected envSecondOk 5).1.reconnecting = false :=
  ⟨(reconnect_loop_bounded stConnected envAllFail 5 rfl rfl).1
      (fun a _ _ => rfl),
    (reconnect_loop_bounded stConnected envSecondOk 5 rfl rfl).2 2
      (by omega) (by decide) (by decide)
      (fun j hj1 hj2 => by interval_cases j; rfl)⟩

/-- C10: `fetch_snapshot` returns exactly one entry per input contract, in
input order: the output length always matches, and in the normal path the
`i`-th entry is exactly the entry assembled from the `i`-th input contract,
so a per-contract qualification or `reqMktData` failure yields an error
entry at that contract's position.  An empty input returns an empty list
without opening a gateway session; a connection failure, or a failure of
the bounded wait (the generic batch exception), yields one error entry per
contract instead of an exception; and every entry is either a data record
or a single-error record. -/
theorem fetch_snapshot_shape (env : SnapEnv) (contracts : List MContract)
    (timeout : ℚ) :
    (fetch_snapshot env contracts timeout).entries.length =
        contracts.length ∧
      (contracts = [] → fetch_snapshot env contracts timeout = ⟨[], false⟩) ∧
      (∀ m, env.connect = .error m → contracts ≠ [] →
        (fetch_snapshot env contracts timeout).entries =
          contracts.map fun _ => .errE m) ∧
      (∀ u m, env.connect = .ok u → 0 < max 0 timeout →
        env.sleepFail = some m → contracts ≠ [] →
        (fetch_snapshot env contracts timeout).entries =
          contracts.map fun _ =>
            .errE (if m = [] then ("snapshot request failed".toList) else m)) ∧
      (∀ u i c, env.connect = .ok u →
        (0 < max 0 timeout → env.sleepFail = none) →
        contracts[i]? = some c →
        (fetch_snapshot env contracts timeout).entries[i]? =
          some (snapshotEntry env c i)) ∧
      (∀ u i c m, env.connect = .ok u →
        (0 < max 0 timeout → env.sleepFail = none) →
        contracts[i]? = some c → preError env i = some m →
        (fetch_snapshot env contracts timeout).entries[i]? =
          some (.errE m)) ∧
      (∀ e ∈ (fetch_snapshot env contracts timeout).entries,
        (∃ m, e = .errE m) ∨ ∃ d, e = .dataE d) := by
  have h7 : ∀ e ∈ (fetch_snapshot env contracts timeout).entries,
      (∃ m, e = .errE m) ∨ ∃ d, e = .dataE d := by
    intro e _
    cases e with
    | errE m => exact Or.inl ⟨m, rfl⟩
    | dataE d => exact Or.inr ⟨d, rfl⟩
  refine ⟨?_, ?_, ?_, ?_, ?_, ?_, h7⟩
  · by_cases hc : contracts = []
    · simp [fetch_snapshot, hc]
    · cases hconn : env.connect with
      | error m => simp [fetch_snapshot, hc, hconn]
      | ok u =>
        by_cases ht : (0 : ℚ) < max 0 timeout
        · cases hsf : env.sleepFail with
          | none => simp [fetch_snapshot, hc, hconn, ht, hsf]
          | some m => simp [fetch_snapshot, hc, hconn, ht, hsf]
        · simp [fetch_snapshot, hc, hconn, ht]
  · intro hc
    simp [fetch_snapshot, hc]
  · intro m hm hne
    simp [fetch_snapshot, hne, hm]
  · intro u m hconn ht hsf hne
    simp [fetch_snapshot, hne, hconn, ht, hsf]
  · intro u i c hconn hsl hget
    exact fetch_snapshot_entry_at env contracts timeout u i c hconn hsl hget
  · intro u i c m hconn hsl hget hpre
    rw [fetch_snapshot_entry_at env contracts timeout u i c hconn hsl hget]
    simp only [snapshotEntry, hpre]

/-- Witness for C10: a failed connection and a failed bounded wait each
yield one error entry per contract; an empty input yields an empty result
with no session; and in a mixed batch the unqualifiable second contract
gets an error entry at position 1 while position 0 gets its own assembled
entry. -/
theorem fetch_snapshot_shape_witness :
    (fetch_snapshot envSnapErr [conOpt, conOpt] 5).entries =
      [conOpt, conOpt].map (fun _ =>
        .errE ("IB Gateway not running".toList)) ∧
    fetch_snapshot envSnapErr [] 5 = ⟨[], false⟩ ∧
    (fetch_snapshot envSnapSleep [conOpt, conOpt] 5).entries =
      [conOpt, conOpt].map (fun _ =>
        .errE ("peer closed connection".toList)) ∧
    (fetch_snapshot envSnapMixed [conOpt, conOpt] 5).entries[1]? =
      some (.errE ("unable to qualify contract".toList)) ∧
    (fetch_snapshot envSnapMixed [conOpt, conOpt] 5).entries[0]? =
      some (snapshotEntry envSnapMixed conOpt 0) :=
  ⟨(fetch_snapshot_shape envSnapErr [conOpt, conOpt] 5).2.2.1
      ("IB Gateway not running".toList) rfl (by simp),
    (fetch_snapshot_shape envSnapErr [] 5).2.1 rfl,
    (fetch_snapshot_shape envSnapSleep [conOpt, conOpt] 5).2.2.2.1 ()
      ("peer closed connection".toList) rfl (by norm_num) rfl (by simp),
    (fetch_snapshot_shape envSnapMixed [conOpt, conOpt] 5).2.2.2.2.2.1 () 1
      conOpt ("unable to qualify contract".toList) rfl (fun _ => rfl) rfl
      rfl,
    (fetch_snapshot_shape envSnapMixed [conOpt, conOpt] 5).2.2.2.2.1 () 0
      conOpt rfl (fun _ => rfl) rfl⟩
